import Mathlib

/-!
Verification development for the wallet-room multi-chain transaction engine.

The TypeScript sources are shallowly embedded: pure functions become Lean
functions, class state becomes explicit state records, thrown errors become
`Except`/`Option` results classified by the error taxonomy of the design
document, and JavaScript numbers feeding `Math.round`/`BigInt` become exact
rationals/integers.  External cryptographic and codec libraries (WebCrypto
AES-GCM, sha256, secp256k1, ethers RLP, the xrpl binary codec, bitcoinjs)
are modelled symbolically: an encryption blob records plaintext and key and
authenticates by key equality (ideal authenticated encryption), signatures
and hashes are opaque functions bundled in an `ExtCrypto` record, and a
library serialization that the library itself inverts is represented by the
record of fields it encodes.
-/

/-- Error taxonomy of the design document (section 7). Thrown `Error`s of the
source are classified by their throw site. -/
inductive ErrKind where
  | InvalidInput
  | InsufficientFunds
  | ProviderLocked
  | NotFound
  | IntegrityFailure
  | UnsupportedChain
  | ProtocolViolation
deriving DecidableEq

deriving instance DecidableEq for Except

/-- The closed set of chain tags (`Chain` in `common.types.ts`). -/
inductive Chain where
  | BTC
  | ETH
  | XRP
  | TRON
deriving DecidableEq

/-- Bitcoin address subtype (`BtcAddressType`); `nativeSegwit` renders the
source's `native-segwit`. -/
inductive BtcAddressType where
  | legacy
  | segwit
  | nativeSegwit
  | taproot
deriving DecidableEq

/-- Wallet temperature classification. -/
inductive WalletType where
  | cold
  | warm
deriving DecidableEq

/-! ### Base64 (model of `Buffer.from(...).toString('base64')`)

The standard alphabet with `=` padding, over byte lists.  This is the data
path of the air-gap envelope (`qr.ts`). -/

/-- The 64-character base64 alphabet. -/
def b64Chars : List Char :=
  ['A','B','C','D','E','F','G','H','I','J','K','L','M','N','O','P',
   'Q','R','S','T','U','V','W','X','Y','Z',
   'a','b','c','d','e','f','g','h','i','j','k','l','m','n','o','p',
   'q','r','s','t','u','v','w','x','y','z',
   '0','1','2','3','4','5','6','7','8','9','+','/']

/-- Character for a 6-bit group. -/
def b64Char (n : Nat) : Char := b64Chars.getD n '?'

/-- Index of a character in the alphabet (0 when absent). -/
def b64ValAux : List Char → Char → Nat → Nat
  | [], _, _ => 0
  | d :: ds, c, i => if d = c then i else b64ValAux ds c (i + 1)

/-- Value of a base64 character. -/
def b64Val (c : Char) : Nat := b64ValAux b64Chars c 0

/-- Base64-encode a byte list (groups of three bytes to four characters,
`=`-padded). -/
def b64Encode : List Nat → List Char
  | [] => []
  | [a] => [b64Char (a / 4), b64Char (a % 4 * 16), '=', '=']
  | [a, b] => [b64Char (a / 4), b64Char (a % 4 * 16 + b / 16), b64Char (b % 16 * 4), '=']
  | a :: b :: c :: rest =>
      b64Char (a / 4) :: b64Char (a % 4 * 16 + b / 16) ::
      b64Char (b % 16 * 4 + c / 64) :: b64Char (c % 64) :: b64Encode rest

/-- Base64-decode; total (a malformed tail decodes leniently, as
`Buffer.from(_, 'base64')` never throws). -/
def b64Decode : List Char → List Nat
  | c1 :: c2 :: c3 :: c4 :: rest =>
      if c3 = '=' then
        [b64Val c1 * 4 + b64Val c2 / 16]
      else if c4 = '=' then
        [b64Val c1 * 4 + b64Val c2 / 16, b64Val c2 % 16 * 16 + b64Val c3 / 4]
      else
        (b64Val c1 * 4 + b64Val c2 / 16) :: (b64Val c2 % 16 * 16 + b64Val c3 / 4) ::
        (b64Val c3 % 4 * 64 + b64Val c4) :: b64Decode rest
  | _ => []

/-! ### Air-gap envelope (`src/utils/qr.ts`) -/

/-- Payload kind tag of an air-gap envelope. -/
inductive PayloadType where
  | unsigned_tx
  | signed_tx
  | public_key
  | address
deriving DecidableEq

/-- The `AirGapPayload` envelope. `data` is the base64 payload as a character
list; `checksum` is the checksum string over `data`. -/
structure AirGapPayload where
  version : String
  type : PayloadType
  chain : Chain
  data : List Char
  checksum : List Char
  timestamp : Nat
deriving DecidableEq

/-- `createAirGapPayload`: JSON-stringify the data (abstract `stringify`,
modelling the runtime JSON facility), base64-encode it, and wrap it with a
checksum (abstract `cs`, modelling the sha256-hex `checksum` helper) in a
versioned envelope. -/
def createAirGapPayload {α : Type} (stringify : α → List Nat) (cs : List Char → List Char)
    (type : PayloadType) (chain : Chain) (d : α) (timestamp : Nat) : AirGapPayload :=
  let encodedData := b64Encode (stringify d)
  { version := "1.0", type := type, chain := chain, data := encodedData,
    checksum := cs encodedData, timestamp := timestamp }

/-- `parseAirGapPayload`: recompute the checksum over the embedded base64
string and reject before any decoding when it differs; then base64-decode and
JSON-parse (abstract `parse`; a parse failure is the thrown `JSON.parse`
error). -/
def parseAirGapPayload {α : Type} (parse : List Nat → Option α) (cs : List Char → List Char)
    (p : AirGapPayload) : Except ErrKind (AirGapPayload × α) :=
  if cs p.data ≠ p.checksum then
    .error .IntegrityFailure
  else
    match parse (b64Decode p.data) with
    | none => .error .InvalidInput
    | some d => .ok (p, d)

/-! ### Animated QR frames (`createAnimatedQRFrames` / `reconstructFromFrames`) -/

/-- An animated QR frame. -/
structure AnimatedQRFrame where
  total : Nat
  index : Nat
  payload : List Char
deriving DecidableEq

/-- Split into chunks of `MAX_QR_DATA_SIZE - 50 = 1950` characters
(the slicing loop of `createAnimatedQRFrames`). -/
def chunksOf (s : List Char) : List (List Char) :=
  if s = [] then [] else s.take 1950 :: chunksOf (s.drop 1950)
termination_by s.length
decreasing_by
  simp only [List.length_drop]
  have : s ≠ [] := by assumption
  have : 0 < s.length := List.length_pos.mpr this
  omega

/-- `createAnimatedQRFrames`: each chunk becomes a `(total, index, payload)`
frame. -/
def createAnimatedQRFrames (data : List Char) : List AnimatedQRFrame :=
  let chunks := chunksOf data
  chunks.enum.map fun p => { total := chunks.length, index := p.1, payload := p.2 }

/-- Insert a frame into a list sorted by index. -/
def insertFrame (x : AnimatedQRFrame) : List AnimatedQRFrame → List AnimatedQRFrame
  | [] => [x]
  | y :: ys => if x.index ≤ y.index then x :: y :: ys else y :: insertFrame x ys

/-- Sort frames by index (the `[...frames].sort((a, b) => a.index - b.index)`
step). -/
def sortFrames : List AnimatedQRFrame → List AnimatedQRFrame
  | [] => []
  | x :: xs => insertFrame x (sortFrames xs)

/-- `reconstructFromFrames`: sort by index, require the first frame's `total`
to be truthy and equal to the frame count, require indices `0..n-1` in order,
then concatenate payloads.  Every deviation throws (`ProtocolViolation`). -/
def reconstructFromFrames (frames : List AnimatedQRFrame) : Except ErrKind (List Char) :=
  match sortFrames frames with
  | [] => .error .ProtocolViolation
  | f0 :: rest =>
    if f0.total = 0 then .error .ProtocolViolation
    else if (f0 :: rest).length ≠ f0.total then .error .ProtocolViolation
    else if (f0 :: rest).map AnimatedQRFrame.index ≠ List.range (f0 :: rest).length then
      .error .ProtocolViolation
    else .ok ((f0 :: rest).map AnimatedQRFrame.payload).flatten

/-! ### Transaction data model (`types/transaction.types.ts`)

Amounts in smallest units are exact integers (`BigInt`/decimal strings of the
source); human-readable amounts are exact rationals, with `parseFloat` +
`Math.round` modelled as `Rat.floor (q * 10 ^ k + 1/2)`. -/

/-- Bitcoin UTXO; `value` is the satoshi amount. -/
structure UTXO where
  txid : String
  vout : Nat
  value : Nat
  scriptPubKey : String
  address : String
  confirmations : Nat
deriving DecidableEq

/-- The single `UnsignedTransaction` interface shared by all chains: exactly
the fields relevant to `chain` are populated. `fromAddr` renders the `from`
field (a Lean keyword). -/
structure UnsignedTransaction where
  id : String
  chain : Chain
  fromAddr : String
  toAddr : String
  amount : Int
  fee : Int
  memo : Option String := none
  createdAt : Nat
  nonce : Option Nat := none
  gasLimit : Option Nat := none
  gasPrice : Option Nat := none
  maxFeePerGas : Option Nat := none
  maxPriorityFeePerGas : Option Nat := none
  data : Option String := none
  chainId : Option Nat := none
  utxos : Option (List UTXO) := none
  changeAddress : Option String := none
  feeRate : Option Nat := none
  sequence : Option Nat := none
  destinationTag : Option Nat := none
  lastLedgerSequence : Option Nat := none
  expiration : Option Nat := none
  refBlockBytes : Option String := none
  refBlockHash : Option String := none
deriving DecidableEq

/-- `BuildTransactionParams` (transfer intent). -/
structure BuildTransactionParams where
  chain : Chain
  fromAddr : String
  toAddr : String
  amount : Rat
  memo : Option String := none
  feeRate : Option Nat := none
  gasLimit : Option Nat := none
  gasPrice : Option Nat := none
  destinationTag : Option Nat := none
deriving DecidableEq

/-- `TransactionPrerequisites` (externally supplied chain data). -/
structure TransactionPrerequisites where
  chain : Chain
  address : String
  nonce : Option Nat := none
  utxos : Option (List UTXO) := none
  sequence : Option Nat := none
  refBlockBytes : Option String := none
  refBlockHash : Option String := none
  suggestedFee : Option Int := none
  balance : Option Int := none
deriving DecidableEq

/-- `Partial<UnsignedTransaction>` as returned by the per-chain
`parseTransaction` functions. -/
structure ParsedTransaction where
  chain : Option Chain := none
  fromAddr : Option String := none
  toAddr : Option String := none
  amount : Option Int := none
  fee : Option Int := none
  nonce : Option Nat := none
  gasLimit : Option Nat := none
  gasPrice : Option Nat := none
  maxFeePerGas : Option Nat := none
  maxPriorityFeePerGas : Option Nat := none
  data : Option String := none
  chainId : Option Nat := none
  sequence : Option Nat := none
  destinationTag : Option Nat := none
  expiration : Option Nat := none
  refBlockBytes : Option String := none
  refBlockHash : Option String := none
deriving DecidableEq

/-! ### Serialized transaction forms

Each external library's broadcast encoding is a bijection onto its image, and
the same library both produces and re-parses it (`ethers`, `xrpl`, `bitcoinjs`;
TRON's is plain JSON built in-repo).  A serialized transaction is therefore
embedded as the record of fields the encoding determines. -/

/-- One input of a finalized Bitcoin transaction (identified by previous
txid/vout; witness data does not affect `parseTransaction`). -/
structure BtcTxIn where
  txid : String
  vout : Nat
deriving DecidableEq

/-- One output of a finalized Bitcoin transaction.  `address` stands for the
output script `toOutputScript(address)`, which `fromOutputScript` inverts for
valid mainnet addresses. -/
structure BtcTxOut where
  address : String
  value : Int
deriving DecidableEq

/-- A finalized Bitcoin transaction (`tx.toHex()`). -/
structure BtcSerialized where
  ins : List BtcTxIn
  outs : List BtcTxOut
deriving DecidableEq

/-- The field content of an ethers `Transaction` (legacy type 0 or
EIP-1559 type 2), as fixed by `Transaction.from(txRequest)`. -/
structure EthTxCore where
  toAddr : String
  value : Int
  nonce : Nat
  chainId : Nat
  data : String
  gasLimit : Nat
  gasPrice : Option Nat
  maxFeePerGas : Option Nat
  maxPriorityFeePerGas : Option Nat
  type : Nat
deriving DecidableEq

/-- A signed, serialized Ethereum transaction (`signedTx.serialized`). The
`sender` field is the address the embedded signature recovers to (`tx.from`). -/
structure EthSerialized where
  core : EthTxCore
  signature : String
  sender : String
deriving DecidableEq

/-- The `txJson` payment object fed to the xrpl signer. -/
structure XrpTxJson where
  account : String
  destination : String
  amount : Int
  fee : Int
  sequence : Option Nat
  lastLedgerSequence : Option Nat
  destinationTag : Option Nat
  memoData : Option String
deriving DecidableEq

/-- A signed XRP transaction blob (`tx_blob`), which `decode` inverts. -/
structure XrpSerialized where
  tx : XrpTxJson
  signature : String
deriving DecidableEq

/-- The `raw_data` object of the JSON-serialized TRON transaction. -/
structure TronRawData where
  fromAddr : String
  toAddr : String
  amount : Int
  ref_block_bytes : Option String
  ref_block_hash : Option String
  expiration : Option Nat
  timestamp : Nat
deriving DecidableEq

/-- The JSON object `signTransaction` (TRON) serializes. -/
structure TronSerialized where
  raw_data : TronRawData
  signature : String
  txID : String
deriving DecidableEq

/-- The hashed pre-image of the TRON transaction id
(`createRawTransaction`); addresses in hex form (abstract `base58ToHex`). -/
structure TronRawHashInput where
  owner_address : String
  to_address : String
  amount : Int
  ref_block_bytes : Option String
  ref_block_hash : Option String
  expiration : Option Nat
  timestamp : Nat
deriving DecidableEq

/-- The serialized form of a signed transaction, tagged per chain. -/
inductive Serialized where
  | btc (b : BtcSerialized)
  | eth (e : EthSerialized)
  | xrp (x : XrpSerialized)
  | tron (t : TronSerialized)
deriving DecidableEq

/-- `SignedTransaction`. -/
structure SignedTransaction where
  unsignedTxId : String
  chain : Chain
  unsignedTx : UnsignedTransaction
  signature : String
  serialized : Serialized
  txHash : String
  signedAt : Nat
deriving DecidableEq

/-- The external cryptographic and codec primitives used by the chain codecs,
kept opaque: secp256k1/Schnorr signing, keccak256/sha256/sha512 hashing, hex
and base58 encoding.  Any interpretation of these functions is admissible. -/
structure ExtCrypto where
  btcSig : String → BtcSerialized → String
  btcTxId : BtcSerialized → String
  ethSign : String → EthTxCore → String
  ethAddrOf : String → String
  ethKeccak : EthSerialized → String
  utf8Hex : String → String
  xrpSign : String → XrpTxJson → String
  xrpHash : XrpSerialized → String
  memoHexUpper : String → String
  tronSign : String → TronRawHashInput → String
  tronHash : TronRawHashInput → String
  base58ToHex : String → String


/-! ### Bitcoin utilities (`btc.utils.ts`) -/

/-- `String.prototype.startsWith`, computed structurally on the character
list. -/
def strStartsWith (s pre : String) : Bool := pre.data.isPrefixOf s.data

/-- `getAddressType`: classify a mainnet address string by its prefix
(`!address` is the empty string). -/
def getAddressType (address : String) : Option BtcAddressType :=
  if address = "" then none
  else if strStartsWith address "1" then some .legacy
  else if strStartsWith address "3" then some .segwit
  else if strStartsWith address "bc1q" then some .nativeSegwit
  else if strStartsWith address "bc1p" then some .taproot
  else none

/-- Per-input virtual size in half-vbytes (the source's `inputSizes` table
doubled, so that taproot's 57.5 stays integral). -/
def inputSize2 : BtcAddressType → Nat
  | .legacy => 296
  | .segwit => 182
  | .nativeSegwit => 136
  | .taproot => 115

/-- Per-output virtual size in half-vbytes (`outputSizes` doubled). -/
def outputSize2 : BtcAddressType → Nat
  | .legacy => 68
  | .segwit => 64
  | .nativeSegwit => 62
  | .taproot => 86

/-- `estimateTxSize`: `ceil(10 + inputs * inputSize + outputs * outputSize)`
computed in half-vbytes (`(2x + 1) / 2 = ceil(x)` for half-integral `x`). -/
def estimateTxSize (inputCount outputCount : Nat) (addressType : BtcAddressType) : Nat :=
  (20 + inputCount * inputSize2 addressType + outputCount * outputSize2 addressType + 1) / 2

/-- `btcToSatoshi`: `Math.round(parseFloat(btc) * 1e8)` over exact rationals. -/
def btcToSatoshi (btc : Rat) : Int := Rat.floor (btc * 100000000 + 1 / 2)

/-! ### Bitcoin transaction codec (`btc.transaction.ts`) -/

namespace Btc

/-- `buildTransaction` (BTC): satoshi conversion, fee from
`estimateTxSize(inputs, 2, subtype) * feeRate`, insufficiency check, and the
unsigned-transaction record.  `newId` and `now` stand for `uuidv4()` and
`Date.now()`. -/
def buildTransaction (newId : String) (now : Nat) (params : BuildTransactionParams)
    (prerequisites : TransactionPrerequisites) : Except ErrKind UnsignedTransaction :=
  let utxos := prerequisites.utxos.getD []
  if utxos = [] then .error .InsufficientFunds
  else
    let amountSats := btcToSatoshi params.amount
    let totalAvailable : Nat := (utxos.map UTXO.value).sum
    let addressType := (getAddressType params.fromAddr).getD .nativeSegwit
    let feeRate := params.feeRate.getD 10
    let estimatedSize := estimateTxSize utxos.length 2 addressType
    let estimatedFee : Nat := estimatedSize * feeRate
    if (totalAvailable : Int) < amountSats + estimatedFee then .error .InsufficientFunds
    else
      .ok { id := newId, chain := .BTC, fromAddr := params.fromAddr, toAddr := params.toAddr,
            amount := amountSats, fee := estimatedFee, memo := params.memo, createdAt := now,
            utxos := some utxos, changeAddress := some params.fromAddr,
            feeRate := some feeRate }

/-- `signTransaction` (BTC): add the PSBT inputs for each UTXO, the recipient
output, and — when the change `totalInput - amount - fee` exceeds the
546-satoshi dust threshold — a change output to `changeAddress || from`; then
finalize.  Signing itself and per-subtype witness data live in the opaque
`ExtCrypto` layer. -/
def signTransaction (c : ExtCrypto) (tx : UnsignedTransaction) (privateKeyHex : String)
    (now : Nat) : Except ErrKind SignedTransaction :=
  let utxos := tx.utxos.getD []
  if utxos = [] then .error .InvalidInput
  else
    let totalInput : Int := ((utxos.map UTXO.value).sum : Nat)
    let change := totalInput - tx.amount - tx.fee
    let outs := { address := tx.toAddr, value := tx.amount : BtcTxOut } ::
      (if change > 546 then
        [{ address := tx.changeAddress.getD tx.fromAddr, value := change : BtcTxOut }]
      else [])
    let ser : BtcSerialized :=
      { ins := utxos.map fun u => { txid := u.txid, vout := u.vout }, outs := outs }
    .ok { unsignedTxId := tx.id, chain := .BTC, unsignedTx := tx,
          signature := c.btcSig privateKeyHex ser, serialized := .btc ser,
          txHash := c.btcTxId ser, signedAt := now }

/-- `parseTransaction` (BTC): read the first output as recipient and amount
(`outputs[0]?.address || ''`, `outputs[0]?.value || '0'`). -/
def parseTransaction (s : BtcSerialized) : ParsedTransaction :=
  { chain := some .BTC,
    toAddr := some ((s.outs.head?.map BtcTxOut.address).getD ""),
    amount := some ((s.outs.head?.map BtcTxOut.value).getD 0) }

end Btc

/-! ### Ethereum transaction codec (`eth.transaction.ts`) -/

/-- `ethToWei`: `ethers.parseEther`, exact for well-formed decimal inputs. -/
def ethToWei (eth : Rat) : Int := Rat.floor (eth * 1000000000000000000)

namespace Eth

/-- `buildTransaction` (ETH, legacy): wei conversion, gas-limit default 21000
(`estimateTransferGas`), gas-price default 20 gwei, `fee = gasLimit *
gasPrice`, chain id 1, and memo hexlified into `data`. -/
def buildTransaction (c : ExtCrypto) (newId : String) (now : Nat)
    (params : BuildTransactionParams) (prerequisites : TransactionPrerequisites) :
    UnsignedTransaction :=
  let nonce := prerequisites.nonce.getD 0
  let amountWei := ethToWei params.amount
  let gasLimitValue := params.gasLimit.getD 21000
  let gasPriceValue := params.gasPrice.getD 20000000000
  let fee : Nat := gasLimitValue * gasPriceValue
  { id := newId, chain := .ETH, fromAddr := params.fromAddr, toAddr := params.toAddr,
    amount := amountWei, fee := fee, memo := params.memo, createdAt := now,
    nonce := some nonce, gasLimit := some gasLimitValue, gasPrice := some gasPriceValue,
    chainId := some 1,
    data := some (match params.memo with | some m => c.utf8Hex m | none => "0x") }

/-- `buildEip1559Transaction`: fee-market variant with explicit
`maxFeePerGas`/`maxPriorityFeePerGas` and `fee = gasLimit * maxFeePerGas`. -/
def buildEip1559Transaction (c : ExtCrypto) (newId : String) (now : Nat)
    (params : BuildTransactionParams) (prerequisites : TransactionPrerequisites)
    (maxFeePerGas maxPriorityFeePerGas : Nat) : UnsignedTransaction :=
  let nonce := prerequisites.nonce.getD 0
  let amountWei := ethToWei params.amount
  let gasLimitValue := params.gasLimit.getD 21000
  let fee : Nat := gasLimitValue * maxFeePerGas
  { id := newId, chain := .ETH, fromAddr := params.fromAddr, toAddr := params.toAddr,
    amount := amountWei, fee := fee, memo := params.memo, createdAt := now,
    nonce := some nonce, gasLimit := some gasLimitValue,
    maxFeePerGas := some maxFeePerGas, maxPriorityFeePerGas := some maxPriorityFeePerGas,
    chainId := some 1,
    data := some (match params.memo with | some m => c.utf8Hex m | none => "0x") }

/-- The ethers `txRequest` assembled by `signTransaction` (ETH): EIP-1559
type 2 when both fee-market fields are present, legacy type 0 otherwise, with
the source's defaults (`nonce` 0, `chainId` 1, `data` `0x`, `gasLimit` 21000,
`gasPrice` 0). -/
def mkTxCore (tx : UnsignedTransaction) : EthTxCore :=
  if tx.maxFeePerGas.isSome ∧ tx.maxPriorityFeePerGas.isSome then
    { toAddr := tx.toAddr, value := tx.amount, nonce := tx.nonce.getD 0,
      chainId := tx.chainId.getD 1, data := tx.data.getD "0x",
      gasLimit := tx.gasLimit.getD 21000, gasPrice := none,
      maxFeePerGas := tx.maxFeePerGas, maxPriorityFeePerGas := tx.maxPriorityFeePerGas,
      type := 2 }
  else
    { toAddr := tx.toAddr, value := tx.amount, nonce := tx.nonce.getD 0,
      chainId := tx.chainId.getD 1, data := tx.data.getD "0x",
      gasLimit := tx.gasLimit.getD 21000, gasPrice := some (tx.gasPrice.getD 0),
      maxFeePerGas := none, maxPriorityFeePerGas := none,
      type := 0 }

/-- The fully serialized signed encoding produced by `signTransaction` (ETH):
the signed `Transaction`'s fields plus the signature over its canonical hash,
whose recovery yields the signer's address. -/
def mkSerialized (c : ExtCrypto) (tx : UnsignedTransaction) (privateKeyHex : String) :
    EthSerialized :=
  { core := mkTxCore tx, signature := c.ethSign privateKeyHex (mkTxCore tx),
    sender := c.ethAddrOf privateKeyHex }

/-- `signTransaction` (ETH): sign the canonical hash, serialize, and derive
the broadcast hash as `keccak256(serializedHex)`. -/
def signTransaction (c : ExtCrypto) (tx : UnsignedTransaction) (privateKeyHex : String)
    (now : Nat) : SignedTransaction :=
  let ser := mkSerialized c tx privateKeyHex
  { unsignedTxId := tx.id, chain := .ETH, unsignedTx := tx,
    signature := ser.signature, serialized := .eth ser, txHash := c.ethKeccak ser,
    signedAt := now }

/-- `parseTransaction` (ETH): read back the decoded `Transaction` fields. -/
def parseTransaction (s : EthSerialized) : ParsedTransaction :=
  { chain := some .ETH, fromAddr := some s.sender, toAddr := some s.core.toAddr,
    amount := some s.core.value, nonce := some s.core.nonce,
    gasLimit := some s.core.gasLimit, gasPrice := s.core.gasPrice,
    maxFeePerGas := s.core.maxFeePerGas, maxPriorityFeePerGas := s.core.maxPriorityFeePerGas,
    data := some s.core.data, chainId := some s.core.chainId }

end Eth

/-! ### XRP transaction codec (`xrp.transaction.ts`) -/

/-- `xrpToDrops`: `Math.round(parseFloat(xrp) * 1e6)` over exact rationals. -/
def xrpToDrops (xrp : Rat) : Int := Rat.floor (xrp * 1000000 + 1 / 2)

/-- `STANDARD_FEE_DROPS = '12'`. -/
def STANDARD_FEE_DROPS : Int := 12

namespace Xrp

/-- `buildTransaction` (XRP): drops conversion, fixed minimum fee, and
`lastLedgerSequence = sequence + 20`. -/
def buildTransaction (newId : String) (now : Nat) (params : BuildTransactionParams)
    (prerequisites : TransactionPrerequisites) : UnsignedTransaction :=
  let sequence := prerequisites.sequence.getD 0
  let amountDrops := xrpToDrops params.amount
  let lastLedgerSequence := prerequisites.sequence.getD 0 + 20
  { id := newId, chain := .XRP, fromAddr := params.fromAddr, toAddr := params.toAddr,
    amount := amountDrops, fee := STANDARD_FEE_DROPS, memo := params.memo, createdAt := now,
    sequence := some sequence, lastLedgerSequence := some lastLedgerSequence,
    destinationTag := params.destinationTag }

/-- The `txJson` payment object assembled by `signTransaction` (XRP), with the
memo hex-encoded uppercase. -/
def mkTxJson (c : ExtCrypto) (tx : UnsignedTransaction) : XrpTxJson :=
  { account := tx.fromAddr, destination := tx.toAddr, amount := tx.amount, fee := tx.fee,
    sequence := tx.sequence, lastLedgerSequence := tx.lastLedgerSequence,
    destinationTag := tx.destinationTag,
    memoData := tx.memo.map c.memoHexUpper }

/-- `signTransaction` (XRP): sign the canonical binary form; the returned
blob is the signed encoding and the hash comes from the xrpl signer. -/
def signTransaction (c : ExtCrypto) (tx : UnsignedTransaction) (privateKeyHex : String)
    (now : Nat) : SignedTransaction :=
  let txJson := mkTxJson c tx
  let ser : XrpSerialized := { tx := txJson, signature := c.xrpSign privateKeyHex txJson }
  { unsignedTxId := tx.id, chain := .XRP, unsignedTx := tx,
    signature := c.xrpSign privateKeyHex txJson, serialized := .xrp ser,
    txHash := c.xrpHash ser, signedAt := now }

/-- `parseTransaction` (XRP): decode the blob and read the payment fields. -/
def parseTransaction (s : XrpSerialized) : ParsedTransaction :=
  { chain := some .XRP, fromAddr := some s.tx.account, toAddr := some s.tx.destination,
    amount := some s.tx.amount, fee := some s.tx.fee, sequence := s.tx.sequence,
    destinationTag := s.tx.destinationTag }

end Xrp

/-! ### TRON transaction codec (`tron.transaction.ts`) -/

/-- `trxToSun`: `Math.round(parseFloat(trx) * 1e6)` over exact rationals. -/
def trxToSun (trx : Rat) : Int := Rat.floor (trx * 1000000 + 1 / 2)

/-- `BANDWIDTH_FEE_SUN = '100000'`. -/
def BANDWIDTH_FEE_SUN : Int := 100000

namespace Tron

/-- `buildTransaction` (TRON): SUN conversion, fixed bandwidth fee,
expiration `now + 10` minutes, defaulted block reference. -/
def buildTransaction (newId : String) (now : Nat) (params : BuildTransactionParams)
    (prerequisites : TransactionPrerequisites) : UnsignedTransaction :=
  let amountSun := trxToSun params.amount
  let expiration := now + 10 * 60 * 1000
  { id := newId, chain := .TRON, fromAddr := params.fromAddr, toAddr := params.toAddr,
    amount := amountSun, fee := BANDWIDTH_FEE_SUN, memo := params.memo, createdAt := now,
    expiration := some expiration,
    refBlockBytes := some (prerequisites.refBlockBytes.getD "0000"),
    refBlockHash := some (prerequisites.refBlockHash.getD "0000000000000000") }

/-- `createRawTransaction`: the hashed pre-image of the transaction id, with
base58 addresses converted to hex. -/
def createRawTransaction (c : ExtCrypto) (tx : UnsignedTransaction) : TronRawHashInput :=
  { owner_address := c.base58ToHex tx.fromAddr, to_address := c.base58ToHex tx.toAddr,
    amount := tx.amount, ref_block_bytes := tx.refBlockBytes,
    ref_block_hash := tx.refBlockHash, expiration := tx.expiration,
    timestamp := tx.createdAt }

/-- `signTransaction` (TRON): hash the raw form, sign with a recoverable
signature, and serialize the JSON object carrying `raw_data`, the signature
and the `txID`. -/
def signTransaction (c : ExtCrypto) (tx : UnsignedTransaction) (privateKeyHex : String)
    (now : Nat) : SignedTransaction :=
  let raw := createRawTransaction c tx
  let txHashHex := c.tronHash raw
  let signatureHex := c.tronSign privateKeyHex raw
  let ser : TronSerialized :=
    { raw_data := { fromAddr := tx.fromAddr, toAddr := tx.toAddr, amount := tx.amount,
                    ref_block_bytes := tx.refBlockBytes, ref_block_hash := tx.refBlockHash,
                    expiration := tx.expiration, timestamp := tx.createdAt },
      signature := signatureHex, txID := txHashHex }
  { unsignedTxId := tx.id, chain := .TRON, unsignedTx := tx,
    signature := signatureHex, serialized := .tron ser, txHash := txHashHex,
    signedAt := now }

/-- `parseTransaction` (TRON): JSON-parse and read the `raw_data` fields. -/
def parseTransaction (s : TronSerialized) : ParsedTransaction :=
  { chain := some .TRON, fromAddr := some s.raw_data.fromAddr, toAddr := some s.raw_data.toAddr,
    amount := some s.raw_data.amount, expiration := s.raw_data.expiration,
    refBlockBytes := s.raw_data.ref_block_bytes, refBlockHash := s.raw_data.ref_block_hash }

end Tron

/-! ### Chain engine facade (`chains/index.ts`) -/

/-- `getChainService(chain).signTransaction`: dispatch by chain tag. -/
def signDispatch (c : ExtCrypto) (tx : UnsignedTransaction) (privateKeyHex : String)
    (now : Nat) : Except ErrKind SignedTransaction :=
  match tx.chain with
  | .BTC => Btc.signTransaction c tx privateKeyHex now
  | .ETH => .ok (Eth.signTransaction c tx privateKeyHex now)
  | .XRP => .ok (Xrp.signTransaction c tx privateKeyHex now)
  | .TRON => .ok (Tron.signTransaction c tx privateKeyHex now)

/-- `getChainService(chain).parseTransaction`: dispatch by chain tag; a
serialized form of another chain would fail that chain's decoder. -/
def parseDispatch (chain : Chain) (s : Serialized) : Except ErrKind ParsedTransaction :=
  match chain, s with
  | .BTC, .btc b => .ok (Btc.parseTransaction b)
  | .ETH, .eth e => .ok (Eth.parseTransaction e)
  | .XRP, .xrp x => .ok (Xrp.parseTransaction x)
  | .TRON, .tron t => .ok (Tron.parseTransaction t)
  | _, _ => .error .InvalidInput

/-! ### Password hashing and key encryption (`utils/crypto.ts`)

`hashPassword` (sha256 over salt ‖ password) is modelled as an ideal
injective hash: the digest is the pair it was computed from.  `encrypt` /
`decrypt` (PBKDF2 + AES-256-GCM) are modelled as ideal authenticated
encryption: a blob records the plaintext together with the key it was sealed
under, and decryption authenticates by key equality — `decryptable iff the
correct password is presented`, the invariant the design document states for
`EncryptedKeyRecord`. -/

/-- Ideal digest of `sha256(salt ‖ password)`. -/
structure PasswordDigest where
  salt : String
  password : String
deriving DecidableEq

/-- `hashPassword(password, salt)`: returns the digest and the salt used. -/
def hashPassword (password salt : String) : PasswordDigest × String :=
  ({ salt := salt, password := password }, salt)

/-- `verifyPassword`: recompute the digest with the stored salt and compare. -/
def verifyPassword (password : String) (storedHash : PasswordDigest) (salt : String) : Bool :=
  (hashPassword password salt).1 = storedHash

/-- Ideal authenticated-encryption blob: `ciphertext` carries the plaintext
symbolically and `encPassword` the sealing key. -/
structure EncryptedBlob where
  ciphertext : String
  encPassword : String
  salt : String
  iv : String
  iterations : Nat
  algorithm : String
deriving DecidableEq

/-- `encrypt(plaintext, password)` with the fresh `salt`/`iv` passed in
explicitly (the source draws them from a CSPRNG). -/
def encrypt (plaintext password salt iv : String) : EncryptedBlob :=
  { ciphertext := plaintext, encPassword := password, salt := salt, iv := iv,
    iterations := 100000, algorithm := "AES-GCM" }

/-- `decrypt`: succeeds with the plaintext exactly under the sealing
password; otherwise AES-GCM authentication fails deterministically. -/
def decrypt (blob : EncryptedBlob) (password : String) : Except ErrKind String :=
  if password = blob.encPassword then .ok blob.ciphertext else .error .IntegrityFailure

/-! ### Local key provider (`chains/index.ts`, `LocalKeyProvider`) -/

/-- `WalletInfo`. -/
structure WalletInfo where
  id : String
  chain : Chain
  type : WalletType
  address : String
  publicKey : String
  derivationPath : String
  label : Option String := none
  createdAt : Nat
  updatedAt : Nat
  isActive : Bool
  addressType : Option BtcAddressType := none
deriving DecidableEq

/-- `EncryptedWalletData`, keyed by wallet id. -/
structure EncryptedWalletData where
  id : String
  enc : EncryptedBlob
deriving DecidableEq

/-- `InternalWalletData`: the stored `(info, encrypted)` pair. -/
structure InternalWalletData where
  info : WalletInfo
  encrypted : EncryptedWalletData
deriving DecidableEq

/-- `CreateWalletParams`. -/
structure CreateWalletParams where
  chain : Chain
  type : WalletType
  label : Option String := none
  derivationPath : Option String := none
  addressType : Option BtcAddressType := none
  accountIndex : Nat := 0
deriving DecidableEq

/-- The outputs of the wallet-generation randomness and of BIP-39/BIP-32
derivation for one `generateWallet` call: fresh uuid, mnemonic, derived keys
and address, and the fresh salt/iv of the key encryption. -/
structure FreshWallet where
  walletId : String
  mnemonic : String
  privateKey : String
  publicKey : String
  address : String
  path : String
  salt : String
  iv : String
deriving DecidableEq

/-- `Map.set` on a list keyed by `key`: replace in place, else append. -/
def setAssoc {β : Type} (l : List (String × β)) (k : String) (v : β) : List (String × β) :=
  if (l.lookup k).isSome then l.map (fun p => if p.1 = k then (k, v) else p)
  else l ++ [(k, v)]

/-- `storage.saveWallet`: `Map.set` keyed by `info.id`. -/
def saveWalletList (ws : List InternalWalletData) (d : InternalWalletData) :
    List InternalWalletData :=
  if ws.any (fun w => w.info.id == d.info.id) then
    ws.map (fun w => if w.info.id = d.info.id then d else w)
  else ws ++ [d]

/-- The `LocalKeyProvider` session state together with its `MemoryStorage`:
stored wallet records, the password-verification record, the cached unlock
password and the decrypted-key cache. -/
structure ProviderState where
  wallets : List InternalWalletData
  passwordHash : Option (PasswordDigest × String) := none
  password : Option String := none
  decryptedKeys : List (String × String) := []
deriving DecidableEq

namespace LocalProvider

/-- `unlock(password)`: first-run bootstrap sets the hash (with a fresh
salt), otherwise verify against the stored hash+salt; only a match caches the
password. -/
def unlock (st : ProviderState) (password freshSalt : String) : ProviderState × Bool :=
  match st.passwordHash with
  | none =>
      let hs := hashPassword password freshSalt
      ({ st with passwordHash := some hs, password := some password }, true)
  | some (h, s) =>
      if verifyPassword password h s then ({ st with password := some password }, true)
      else (st, false)

/-- `lock()`: clear the cached password and every cached decrypted key. -/
def lock (st : ProviderState) : ProviderState :=
  { st with password := none, decryptedKeys := [] }

/-- `isUnlocked()`. -/
def isUnlocked (st : ProviderState) : Bool := st.password.isSome

/-- `generateWallet` / `createWalletFromMnemonic`: requires the session
password; derivation outputs come in through `fresh`; the derived private key
is encrypted under the session password, the record persisted and the key
cached.  Returns the wallet info and the one-time mnemonic. -/
def generateWallet (st : ProviderState) (fresh : FreshWallet) (params : CreateWalletParams)
    (now : Nat) : Except ErrKind (ProviderState × WalletInfo × String) :=
  match st.password with
  | none => .error .ProviderLocked
  | some pw =>
      let info : WalletInfo :=
        { id := fresh.walletId, chain := params.chain, type := params.type,
          address := fresh.address, publicKey := fresh.publicKey,
          derivationPath := fresh.path, label := params.label,
          createdAt := now, updatedAt := now, isActive := true,
          addressType := if params.chain = .BTC then params.addressType else none }
      let encd : EncryptedWalletData :=
        { id := fresh.walletId, enc := encrypt fresh.privateKey pw fresh.salt fresh.iv }
      let st' :=
        { st with wallets := saveWalletList st.wallets { info := info, encrypted := encd },
                  decryptedKeys := setAssoc st.decryptedKeys fresh.walletId fresh.privateKey }
      .ok (st', info, fresh.mnemonic)

/-- `signTransaction` (provider): requires the session password; takes the
private key from the cache, else decrypts it from storage (caching it), then
delegates to the chain codec. -/
def signTransaction (c : ExtCrypto) (st : ProviderState) (walletId : String)
    (tx : UnsignedTransaction) (now : Nat) :
    Except ErrKind (ProviderState × SignedTransaction) :=
  match st.password with
  | none => .error .ProviderLocked
  | some pw =>
      match st.decryptedKeys.lookup walletId with
      | some privateKey => (signDispatch c tx privateKey now).map (fun s => (st, s))
      | none =>
          match st.wallets.find? (fun w => w.info.id == walletId) with
          | none => .error .NotFound
          | some w =>
              match decrypt w.encrypted.enc pw with
              | .error e => .error e
              | .ok privateKey =>
                  (signDispatch c tx privateKey now).map
                    (fun s =>
                      ({ st with decryptedKeys := setAssoc st.decryptedKeys walletId privateKey },
                       s))

/-- The re-encryption loop of `changePassword`: each record is decrypted
under the current password and — crucially — persisted re-encrypted under the
new one immediately; a failing decrypt aborts the loop with the storage in
whatever state the loop reached. -/
def changePasswordLoop (stored : List InternalWalletData) (todo : List InternalWalletData)
    (currentPassword newPassword saltNew ivNew : String) :
    List InternalWalletData × Option ErrKind :=
  match todo with
  | [] => (stored, none)
  | w :: rest =>
      match decrypt w.encrypted.enc currentPassword with
      | .error e => (stored, some e)
      | .ok privateKey =>
          let encd : EncryptedWalletData :=
            { id := w.info.id, enc := encrypt privateKey newPassword saltNew ivNew }
          changePasswordLoop (saveWalletList stored { info := w.info, encrypted := encd })
            rest currentPassword newPassword saltNew ivNew

/-- `changePassword(current, new)`: verify `current` against the stored hash,
run the re-encryption loop over the stored records, and only after the full
loop update the password hash and cached password.  The second component
reports the thrown error, the first the storage/session state it leaves
behind. -/
def changePassword (st : ProviderState) (currentPassword newPassword : String)
    (freshSalt saltNew ivNew : String) : ProviderState × Option ErrKind :=
  match st.passwordHash with
  | none => (st, some .InvalidInput)
  | some (h, s) =>
      if ¬ verifyPassword currentPassword h s then (st, some .InvalidInput)
      else
        let r := changePasswordLoop st.wallets st.wallets currentPassword newPassword
          saltNew ivNew
        match r.2 with
        | some e => ({ st with wallets := r.1 }, some e)
        | none =>
            let hs := hashPassword newPassword freshSalt
            ({ st with wallets := r.1, passwordHash := some hs,
                       password := some newPassword }, none)

end LocalProvider

/-! ### External key provider (`providers/external-key.provider.ts`) -/

/-- The payload object `exportForSigning` JSON-stringifies. -/
structure ExportPayload where
  walletId : String
  publicKey : String
  address : String
  transaction : UnsignedTransaction
deriving DecidableEq

/-- The `ExternalKeyProvider` state: watch-only wallet storage and the
pending-transaction map keyed by unsigned-transaction id. -/
structure ExtProviderState where
  wallets : List WalletInfo
  pendingTransactions : List (String × UnsignedTransaction) := []
deriving DecidableEq

namespace ExternalProvider

/-- `exportForSigning`: look up the wallet, remember the unsigned transaction
as pending under its id, and package the payload into a checksummed air-gap
envelope (abstract JSON `stringifyExport`, abstract checksum `cs`). -/
def exportForSigning (stringifyExport : ExportPayload → List Nat)
    (cs : List Char → List Char) (st : ExtProviderState) (walletId : String)
    (tx : UnsignedTransaction) (timestamp : Nat) :
    Except ErrKind (ExtProviderState × AirGapPayload) :=
  match st.wallets.find? (fun w => w.id == walletId) with
  | none => .error .NotFound
  | some w =>
      let st' := { st with
        pendingTransactions := setAssoc st.pendingTransactions tx.id tx }
      let data := b64Encode (stringifyExport
        { walletId := walletId, publicKey := w.publicKey, address := w.address,
          transaction := tx })
      .ok (st', { version := "1.0", type := .unsigned_tx, chain := tx.chain, data := data,
                  checksum := cs data, timestamp := timestamp })

/-- `importSignedTransaction`: verify the envelope checksum, require the
`signed_tx` kind, decode the signed transaction (abstract JSON
`parseSigned`), require a pending entry under its `unsignedTxId`, and clear
that entry on success. -/
def importSignedTransaction (parseSigned : List Nat → Option SignedTransaction)
    (cs : List Char → List Char) (st : ExtProviderState) (env : AirGapPayload) :
    Except ErrKind (ExtProviderState × SignedTransaction) :=
  if cs env.data ≠ env.checksum then .error .IntegrityFailure
  else if env.type ≠ .signed_tx then .error .ProtocolViolation
  else
    match parseSigned (b64Decode env.data) with
    | none => .error .InvalidInput
    | some signedTx =>
        match st.pendingTransactions.lookup signedTx.unsignedTxId with
        | none => .error .NotFound
        | some _ =>
            let st' := { st with
              pendingTransactions :=
                st.pendingTransactions.filter (fun p => p.1 != signedTx.unsignedTxId) }
            .ok (st', signedTx)

end ExternalProvider

/-! ### Concrete sample data

Concrete instances used to evaluate the embedded code on the scenario inputs
of the design document and to instantiate the abstract external primitives. -/

/-- A trivial interpretation of the external crypto primitives. -/
def trivialCrypto : ExtCrypto :=
  { btcSig := fun _ _ => "", btcTxId := fun _ => "", ethSign := fun _ _ => "",
    ethAddrOf := fun _ => "", ethKeccak := fun _ => "", utf8Hex := fun _ => "",
    xrpSign := fun _ _ => "", xrpHash := fun _ => "", memoHexUpper := fun _ => "",
    tronSign := fun _ _ => "", tronHash := fun _ => "", base58ToHex := fun _ => "" }

/-- A single native-segwit UTXO of the given satoshi value. -/
def scenarioUtxo (v : Nat) : UTXO :=
  { txid := "ff00", vout := 0, value := v, scriptPubKey := "0014aabb",
    address := "bc1qsender", confirmations := 6 }

/-- The section-8 Bitcoin transfer intent: native-segwit sender, 0.01 BTC,
fee-rate 10 sat/vB. -/
def scenarioParams : BuildTransactionParams :=
  { chain := .BTC, fromAddr := "bc1qsender", toAddr := "bc1qrecipient",
    amount := 1 / 100, feeRate := some 10 }

/-- Prerequisites holding a single UTXO of the given value. -/
def scenarioPrereq (v : Nat) : TransactionPrerequisites :=
  { chain := .BTC, address := "bc1qsender", utxos := some [scenarioUtxo v] }

/-- The section-8 Ethereum scenario transaction: 0 ETH, nonce 0, legacy gas. -/
def sampleEthTx : UnsignedTransaction :=
  { id := "u1", chain := .ETH, fromAddr := "0xaddr1", toAddr := "0xdead",
    amount := 0, fee := 420000000000000, createdAt := 0, nonce := some 0,
    gasLimit := some 21000, gasPrice := some 20000000000, chainId := some 1,
    data := some "0x" }

/-- Fresh randomness/derivation outputs for one generated wallet. -/
def sampleFresh : FreshWallet :=
  { walletId := "w1", mnemonic := "test mnemonic", privateKey := "priv1",
    publicKey := "pub1", address := "0xaddr1", path := "m/44h/60h/0h/0/0",
    salt := "s1", iv := "iv1" }

/-- Creation parameters for an ETH wallet. -/
def sampleCreateParams : CreateWalletParams := { chain := .ETH, type := .warm }

/-- A wallet record sealed under the password `old`. -/
def walletUnderOld : InternalWalletData :=
  { info := { id := "w1", chain := .ETH, type := .warm, address := "0xa1",
              publicKey := "p1", derivationPath := "m/1", createdAt := 0,
              updatedAt := 0, isActive := true },
    encrypted := { id := "w1", enc := encrypt "k1" "old" "s" "i" } }

/-- A wallet record sealed under a different password, so that it fails to
decrypt under `old` (the state a previously interrupted re-encryption or a
tampered store leaves behind). -/
def walletUnderOther : InternalWalletData :=
  { info := { id := "w2", chain := .ETH, type := .warm, address := "0xa2",
              publicKey := "p2", derivationPath := "m/2", createdAt := 0,
              updatedAt := 0, isActive := true },
    encrypted := { id := "w2", enc := encrypt "k2" "other" "s" "i" } }

/-- A provider state whose password hash verifies `old` while one of its two
stored records does not decrypt under `old`. -/
def mixedState : ProviderState :=
  { wallets := [walletUnderOld, walletUnderOther],
    passwordHash := some (hashPassword "old" "ps"), password := some "old" }

/-- A signed transaction referencing the pending id `u1`. -/
def sampleSignedTx : SignedTransaction :=
  { unsignedTxId := "u1", chain := .ETH, unsignedTx := sampleEthTx, signature := "",
    serialized := .eth (Eth.mkSerialized trivialCrypto sampleEthTx "k0"),
    txHash := "", signedAt := 0 }

/-- An external-provider state with `u1` pending. -/
def sampleExtState : ExtProviderState :=
  { wallets := [], pendingTransactions := [("u1", sampleEthTx)] }

/-- A well-formed `signed_tx` envelope under the identity checksum. -/
def sampleEnvelope : AirGapPayload :=
  { version := "1.0", type := .signed_tx, chain := .ETH, data := [], checksum := [],
    timestamp := 0 }

/-- The all-inclusive fee `buildTransaction` (BTC) charges: estimated size
from the input count, two outputs and the sender's subtype, times the fee
rate (default 10). -/
def btcFeeOf (params : BuildTransactionParams) (utxos : List UTXO) : Nat :=
  estimateTxSize utxos.length 2 ((getAddressType params.fromAddr).getD .nativeSegwit) *
    params.feeRate.getD 10

/-- The unsigned transaction `buildTransaction` (BTC) returns for the §8
intent against a single 1,100,000-satoshi UTXO. -/
def scenarioBuiltTx : UnsignedTransaction :=
  { id := "tx1", chain := .BTC, fromAddr := "bc1qsender", toAddr := "bc1qrecipient",
    amount := 1000000, fee := 1400, createdAt := 0,
    utxos := some [scenarioUtxo 1100000], changeAddress := some "bc1qsender",
    feeRate := some 10 }

/-- The serialized form signing `scenarioBuiltTx` produces: recipient output
and a 98,600-satoshi change output. -/
def scenarioSer : BtcSerialized :=
  { ins := [{ txid := "ff00", vout := 0 }],
    outs := [{ address := "bc1qrecipient", value := 1000000 },
             { address := "bc1qsender", value := 98600 }] }

/-- The signed transaction for `scenarioBuiltTx` under `trivialCrypto`. -/
def scenarioSignedBtc : SignedTransaction :=
  { unsignedTxId := "tx1", chain := .BTC, unsignedTx := scenarioBuiltTx,
    signature := "", serialized := .btc scenarioSer, txHash := "", signedAt := 0 }

/-- A fresh provider with empty storage (first-run bootstrap). -/
def emptyProviderState : ProviderState := { wallets := [] }

/-- The wallet info `generateWallet` produces for `sampleFresh` /
`sampleCreateParams`. -/
def sampleWalletInfo : WalletInfo :=
  { id := "w1", chain := .ETH, type := .warm, address := "0xaddr1", publicKey := "pub1",
    derivationPath := "m/44h/60h/0h/0/0", createdAt := 0, updatedAt := 0, isActive := true }

/-- The provider state after bootstrap-unlock with `pw` and one generated
wallet. -/
def sampleState2 : ProviderState :=
  { wallets := [{ info := sampleWalletInfo,
                  encrypted := { id := "w1", enc := encrypt "priv1" "pw" "s1" "iv1" } }],
    passwordHash := some (hashPassword "pw" "fs"), password := some "pw",
    decryptedKeys := [("w1", "priv1")] }

/-! ## Supporting lemmas -/

theorem b64Val_b64Char : ∀ n, n < 64 → b64Val (b64Char n) = n := by decide

theorem b64Char_ne_pad : ∀ n, n < 64 → b64Char n ≠ '=' := by decide

/-- Decoding inverts encoding on byte lists. -/
theorem b64_roundtrip : ∀ bs : List Nat, (∀ x ∈ bs, x < 256) → b64Decode (b64Encode bs) = bs
  | [], _ => rfl
  | [a], h => by
      have ha : a < 256 := h a (by simp)
      simp only [b64Encode, b64Decode]
      rw [if_pos trivial]
      rw [b64Val_b64Char _ (by omega), b64Val_b64Char _ (by omega)]
      simp only [List.cons.injEq, and_true]
      omega
  | [a, b], h => by
      have ha : a < 256 := h a (by simp)
      have hb : b < 256 := h b (by simp)
      simp only [b64Encode, b64Decode]
      rw [if_neg (b64Char_ne_pad _ (by omega)), if_pos trivial]
      rw [b64Val_b64Char _ (by omega), b64Val_b64Char _ (by omega),
        b64Val_b64Char _ (by omega)]
      simp only [List.cons.injEq, and_true]
      omega
  | a :: b :: c :: rest, h => by
      have ha : a < 256 := h a (by simp)
      have hb : b < 256 := h b (by simp)
      have hc : c < 256 := h c (by simp)
      have ih := b64_roundtrip rest (fun x hx => h x (by simp [hx]))
      simp only [b64Encode, b64Decode]
      rw [if_neg (b64Char_ne_pad _ (by omega)), if_neg (b64Char_ne_pad _ (by omega))]
      rw [b64Val_b64Char _ (by omega), b64Val_b64Char _ (by omega),
        b64Val_b64Char _ (by omega), b64Val_b64Char _ (by omega)]
      have h1 : a / 4 * 4 + (a % 4 * 16 + b / 16) / 16 = a := by omega
      have h2 : (a % 4 * 16 + b / 16) % 16 * 16 + (b % 16 * 4 + c / 64) / 4 = b := by omega
      have h3 : (b % 16 * 4 + c / 64) % 4 * 64 + c % 64 = c := by omega
      simp only [List.cons.injEq]
      exact ⟨h1, h2, h3, ih⟩

theorem parseAirGapPayload_reject {α : Type} (parse : List Nat → Option α)
    (cs : List Char → List Char) (p : AirGapPayload) (h : cs p.data ≠ p.checksum) :
    parseAirGapPayload parse cs p = .error .IntegrityFailure := by
  simp [parseAirGapPayload, h]

/-- Claim C3: for every air-gap envelope, `decode` recomputes the checksum
over the embedded base64 payload string and, whenever it differs from the
stored checksum — in particular after replacing any byte of the payload of a
well-formed encoded envelope with one that changes the checksum — it rejects
with `IntegrityFailure` before the payload is interpreted and returns no
decoded data. -/
theorem claim_C3 :
    (∀ (α : Type) (parse : List Nat → Option α) (cs : List Char → List Char)
      (p : AirGapPayload), cs p.data ≠ p.checksum →
      parseAirGapPayload parse cs p = .error .IntegrityFailure) ∧
    (∀ (α : Type) (stringify : α → List Nat) (parse : List Nat → Option α)
      (cs : List Char → List Char) (ty : PayloadType) (ch : Chain) (d : α) (ts : Nat)
      (i : Nat) (c : Char),
      cs ((createAirGapPayload stringify cs ty ch d ts).data.set i c) ≠
        cs (createAirGapPayload stringify cs ty ch d ts).data →
      parseAirGapPayload parse cs
        { createAirGapPayload stringify cs ty ch d ts with
          data := (createAirGapPayload stringify cs ty ch d ts).data.set i c } =
        .error .IntegrityFailure) := by
  constructor
  · intro α parse cs p h
    exact parseAirGapPayload_reject parse cs p h
  · intro α stringify parse cs ty ch d ts i c h
    apply parseAirGapPayload_reject
    simpa [createAirGapPayload] using h

theorem claim_C3_witness :
    parseAirGapPayload (fun _ => (none : Option Nat)) id
      { version := "1.0", type := .unsigned_tx, chain := .BTC, data := ['a'],
        checksum := [], timestamp := 0 } = .error .IntegrityFailure :=
  claim_C3.1 Nat (fun _ => none) id _ (by decide)

/-- Claim C8: decoding the envelope produced by `encode` returns the original
payload unchanged, for every payload kind, chain tag and JSON-serializable
payload (any value the runtime JSON codec round-trips to a byte string). -/
theorem claim_C8 :
    ∀ (α : Type) (stringify : α → List Nat) (parse : List Nat → Option α)
      (cs : List Char → List Char) (ty : PayloadType) (ch : Chain) (d : α) (ts : Nat),
      parse (stringify d) = some d →
      (∀ b ∈ stringify d, b < 256) →
      parseAirGapPayload parse cs (createAirGapPayload stringify cs ty ch d ts) =
        .ok (createAirGapPayload stringify cs ty ch d ts, d) := by
  intro α stringify parse cs ty ch d ts hround hbytes
  simp only [parseAirGapPayload, createAirGapPayload]
  rw [if_neg (by simp)]
  rw [b64_roundtrip _ hbytes, hround]

theorem claim_C8_witness :
    parseAirGapPayload (fun l => l.head?) id
      (createAirGapPayload (fun n => [n]) id .signed_tx .ETH 5 7) =
      .ok (createAirGapPayload (fun n => [n]) id .signed_tx .ETH 5 7, 5) :=
  claim_C8 Nat (fun n => [n]) (fun l => l.head?) id .signed_tx .ETH 5 7 (by decide)
    (by decide)

theorem chunksOf_ne_nil (s : List Char) (h : s ≠ []) : chunksOf s ≠ [] := by
  rw [chunksOf]
  simp [h]

theorem chunksOf_flatten (s : List Char) : (chunksOf s).flatten = s := by
  rw [chunksOf]
  split
  next h => rw [h]; rfl
  next h =>
      have ih := chunksOf_flatten (s.drop 1950)
      simp only [List.flatten_cons, ih, List.take_append_drop]
termination_by s.length
decreasing_by
  simp only [List.length_drop]
  have hne : s ≠ [] := by assumption
  have hpos : 0 < s.length := List.length_pos.mpr hne
  omega

theorem enumFrames_map_payload (l : List (List Char)) (t n : Nat) :
    (((l.enumFrom n).map fun p => AnimatedQRFrame.mk t p.1 p.2).map
      AnimatedQRFrame.payload) = l := by
  induction l generalizing n with
  | nil => rfl
  | cons x xs ih => simp [List.enumFrom, ih]

theorem enumFrames_map_index (l : List (List Char)) (t n : Nat) :
    (((l.enumFrom n).map fun p => AnimatedQRFrame.mk t p.1 p.2).map
      AnimatedQRFrame.index) = List.range' n l.length := by
  induction l generalizing n with
  | nil => rfl
  | cons x xs ih => simp [List.enumFrom, List.range', ih]

theorem enumFrames_total {l : List (List Char)} {t n : Nat} :
    ∀ f ∈ (l.enumFrom n).map fun p => AnimatedQRFrame.mk t p.1 p.2, f.total = t := by
  intro f hf
  obtain ⟨p, _, rfl⟩ := List.mem_map.mp hf
  rfl

theorem insertFrame_perm (x : AnimatedQRFrame) (l : List AnimatedQRFrame) :
    List.Perm (insertFrame x l) (x :: l) := by
  induction l with
  | nil => rfl
  | cons y ys ih =>
      rw [insertFrame]
      split
      · rfl
      · exact ((ih.cons y).trans (List.Perm.swap x y ys)).symm.symm

theorem sortFrames_perm (l : List AnimatedQRFrame) : List.Perm (sortFrames l) l := by
  induction l with
  | nil => rfl
  | cons x xs ih => exact (insertFrame_perm x (sortFrames xs)).trans (ih.cons x)

theorem sortFrames_of_pairwise (l : List AnimatedQRFrame)
    (h : l.Pairwise fun a b => a.index ≤ b.index) : sortFrames l = l := by
  induction l with
  | nil => rfl
  | cons x xs ih =>
      rw [sortFrames, ih h.of_cons]
      cases xs with
      | nil => rfl
      | cons y ys =>
          rw [insertFrame, if_pos]
          exact List.rel_of_pairwise_cons h (by simp)

theorem reconstruct_of_canonical (l : List AnimatedQRFrame) (hne : l ≠ [])
    (hsort : sortFrames l = l)
    (hidx : l.map AnimatedQRFrame.index = List.range l.length)
    (htot : ∀ f ∈ l, f.total = l.length) :
    reconstructFromFrames l = .ok (l.map AnimatedQRFrame.payload).flatten := by
  unfold reconstructFromFrames
  split
  next heq =>
      rw [hsort] at heq
      exact absurd heq hne
  next f0 rest heq =>
      rw [hsort] at heq
      subst heq
      have h0 : f0.total = rest.length + 1 := by
        simpa using htot f0 (by simp)
      rw [if_neg (by omega), if_neg (by simp [h0]), if_neg (by simp [hidx])]
theorem reconstruct_error_of_not_canonical (frames : List AnimatedQRFrame) (t : Nat)
    (ht : ∀ f ∈ frames, f.total = t)
    (h : ¬(frames.length = t ∧
        (sortFrames frames).map AnimatedQRFrame.index = List.range t)) :
    reconstructFromFrames frames = .error .ProtocolViolation := by
  unfold reconstructFromFrames
  have hperm := sortFrames_perm frames
  split
  next => rfl
  next f0 rest heq =>
      have hmem : f0 ∈ frames := hperm.mem_iff.mp (by rw [heq]; simp)
      have h0 : f0.total = t := ht f0 hmem
      have hlen : rest.length + 1 = frames.length := by
        have := hperm.length_eq
        rw [heq] at this
        simpa using this
      by_cases hft : frames.length = t
      · have hidxne : (f0 :: rest).map AnimatedQRFrame.index ≠ List.range t := by
          intro hcontra
          rw [heq] at h
          exact h ⟨hft, hcontra⟩
        rw [if_neg (by omega), if_neg (by simp; omega)]
        rw [if_pos (by simpa [show rest.length + 1 = t by omega] using hidxne)]
      · by_cases h0z : t = 0
        · rw [if_pos (by omega)]
        · rw [if_neg (by omega), if_pos (by simp; omega)]

/-- Claim C9: reassembling the complete frame set produced by fragmentation
returns the original payload exactly, for every non-empty payload (below or
above the single-frame limit); and any frame set over a shared `total` whose
indices do not form the contiguous run `0..total-1` with exactly `total`
frames — one index missing, duplicated, or a count mismatch — fails with
`ProtocolViolation` and never yields a partial result. -/
theorem claim_C9 :
    (∀ X : List Char, X ≠ [] →
      reconstructFromFrames (createAnimatedQRFrames X) = .ok X) ∧
    (∀ (frames : List AnimatedQRFrame) (t : Nat),
      (∀ f ∈ frames, f.total = t) →
      ¬(frames.length = t ∧
          (sortFrames frames).map AnimatedQRFrame.index = List.range t) →
      reconstructFromFrames frames = .error .ProtocolViolation) := by
  constructor
  · intro X hX
    show reconstructFromFrames
      (((chunksOf X).enumFrom 0).map fun p =>
        { total := (chunksOf X).length, index := p.1, payload := p.2 }) = .ok X
    set chunks := chunksOf X with hchunks
    set frames := (chunks.enumFrom 0).map fun p =>
      AnimatedQRFrame.mk chunks.length p.1 p.2 with hframes
    have hpay : frames.map AnimatedQRFrame.payload = chunks :=
      enumFrames_map_payload chunks chunks.length 0
    have hlenf : frames.length = chunks.length := by
      have := congrArg List.length hpay
      simpa using this
    have hidx : frames.map AnimatedQRFrame.index = List.range chunks.length := by
      rw [hframes, enumFrames_map_index, List.range_eq_range']
    have hne : frames ≠ [] := by
      intro hcontra
      have : chunks = [] := by rw [← hpay, hcontra]; rfl
      exact chunksOf_ne_nil X hX this
    have hsorted : sortFrames frames = frames := by
      apply sortFrames_of_pairwise
      have hpw : (frames.map AnimatedQRFrame.index).Pairwise (· < ·) := by
        rw [hidx]; exact List.pairwise_lt_range chunks.length
      have := (List.pairwise_map).mp hpw
      exact this.imp le_of_lt
    have := reconstruct_of_canonical frames hne hsorted (by rw [hidx, hlenf])
      (by intro f hf; rw [hlenf]; exact enumFrames_total f hf)
    rw [this, hpay, chunksOf_flatten]
  · intro frames t ht h
    exact reconstruct_error_of_not_canonical frames t ht h

theorem claim_C9_witness :
    reconstructFromFrames (createAnimatedQRFrames ['a']) = .ok ['a'] :=
  claim_C9.1 ['a'] (by decide)

/-- Claim C5: for every Bitcoin build call with a non-empty UTXO list, the
fee is the estimated size (from input count, the fixed two outputs, and the
sender's address subtype) times the fee-rate; build fails with
`InsufficientFunds` iff the UTXO values sum below amount-in-satoshi plus that
fee; and on success the unsigned transaction carries exactly the supplied
UTXOs, that amount and that fee. -/
theorem claim_C5 (newId : String) (now : Nat) (params : BuildTransactionParams)
    (prereq : TransactionPrerequisites) (hne : prereq.utxos.getD [] ≠ []) :
    (Btc.buildTransaction newId now params prereq = .error .InsufficientFunds ↔
      ((((prereq.utxos.getD []).map UTXO.value).sum : Int) <
        btcToSatoshi params.amount + btcFeeOf params (prereq.utxos.getD []))) ∧
    (∀ tx, Btc.buildTransaction newId now params prereq = .ok tx →
      tx.utxos = some (prereq.utxos.getD []) ∧
      tx.amount = btcToSatoshi params.amount ∧
      tx.fee = btcFeeOf params (prereq.utxos.getD [])) := by
  simp only [Btc.buildTransaction, btcFeeOf]
  rw [if_neg hne]
  by_cases hc : ((((prereq.utxos.getD []).map UTXO.value).sum : Int) <
      btcToSatoshi params.amount +
        (estimateTxSize (prereq.utxos.getD []).length 2
          ((getAddressType params.fromAddr).getD .nativeSegwit) * params.feeRate.getD 10 : Nat))
  · rw [if_pos hc]
    exact ⟨iff_of_true rfl hc, by intro tx h; cases h⟩
  · rw [if_neg hc]
    refine ⟨iff_of_false (by simp) hc, ?_⟩
    intro tx h
    cases h
    exact ⟨rfl, rfl, rfl⟩

theorem btcToSatoshi_centi : btcToSatoshi (1 / 100) = 1000000 := by
  norm_num [btcToSatoshi, Rat.floor]

theorem scenario_addrType : (getAddressType "bc1qsender").getD .nativeSegwit = .nativeSegwit := by
  decide

theorem claim_C5_witness :
    Btc.buildTransaction "t" 0 scenarioParams (scenarioPrereq 500) =
      .error .InsufficientFunds := by
  apply (claim_C5 "t" 0 scenarioParams (scenarioPrereq 500) (by decide)).1.mpr
  rw [show (scenarioPrereq 500).utxos.getD [] = [scenarioUtxo 500] from rfl]
  rw [show btcFeeOf scenarioParams [scenarioUtxo 500] = 1400 by decide]
  rw [show scenarioParams.amount = 1 / 100 from rfl, btcToSatoshi_centi]
  norm_num
  decide

/-- Claim C2 counterexample: on the §8 inputs as given — 0.01 BTC against a
single 1,000,000-satoshi UTXO at 10 sat/vB — the build step itself fails with
`InsufficientFunds` (1,000,000 < 1,000,000 + 1,400), so the pipeline does not
produce a change output at all. -/
theorem claim_C2_counterexample :
    Btc.buildTransaction "tx1" 0 scenarioParams (scenarioPrereq 1000000) =
      .error .InsufficientFunds := by
  simp only [Btc.buildTransaction]
  rw [if_neg (by decide)]
  rw [if_pos]
  rw [show (scenarioPrereq 1000000).utxos.getD [] = [scenarioUtxo 1000000] from rfl]
  rw [show scenarioParams.amount = 1 / 100 from rfl, btcToSatoshi_centi]
  rw [show estimateTxSize [scenarioUtxo 1000000].length 2
      ((getAddressType scenarioParams.fromAddr).getD .nativeSegwit) *
      scenarioParams.feeRate.getD 10 = 1400 by decide]
  norm_num
  decide

/-- Claim C2 amended: in the §8 scenario the UTXO must exceed
amount + fee + dust for the pipeline to succeed; with a 1,100,000-satoshi
UTXO (everything else as given) build succeeds and signing emits a change
output of 98,600 satoshi, strictly above the 546-satoshi dust threshold. -/
theorem claim_C2_amended :
    Btc.buildTransaction "tx1" 0 scenarioParams (scenarioPrereq 1100000) =
      .ok scenarioBuiltTx ∧
    Btc.signTransaction trivialCrypto scenarioBuiltTx "0abc" 0 =
      .ok scenarioSignedBtc ∧
    scenarioSignedBtc.serialized = .btc scenarioSer ∧
    scenarioSer.outs = [{ address := "bc1qrecipient", value := 1000000 },
                        { address := "bc1qsender", value := 98600 }] ∧
    (546 : Int) < 98600 := by
  refine ⟨?_, by decide, rfl, rfl, by norm_num⟩
  simp only [Btc.buildTransaction]
  rw [if_neg (by decide)]
  rw [show (scenarioPrereq 1100000).utxos.getD [] = [scenarioUtxo 1100000] from rfl]
  rw [show scenarioParams.amount = 1 / 100 from rfl, btcToSatoshi_centi]
  rw [show estimateTxSize [scenarioUtxo 1100000].length 2
      ((getAddressType scenarioParams.fromAddr).getD .nativeSegwit) *
      scenarioParams.feeRate.getD 10 = 1400 by decide]
  rw [if_neg (by norm_num; decide)]
  decide

/-- Claim C6: for every Ethereum signing call (legacy or fee-market), the
returned `txHash` is `keccak256` of the fully serialized signed encoding, so
recomputing the hash of the returned serialized transaction reproduces the
returned `txHash` — in particular for the §8 zero-ETH nonce-0 transfer. -/
theorem claim_C6 (c : ExtCrypto) (tx : UnsignedTransaction) (privateKeyHex : String)
    (now : Nat) (s : EthSerialized)
    (h : (Eth.signTransaction c tx privateKeyHex now).serialized = .eth s) :
    c.ethKeccak s = (Eth.signTransaction c tx privateKeyHex now).txHash := by
  have hs : s = Eth.mkSerialized c tx privateKeyHex := by
    have h' : Serialized.eth (Eth.mkSerialized c tx privateKeyHex) = .eth s := h
    cases h'
    rfl
  subst hs
  rfl

theorem claim_C6_witness :
    trivialCrypto.ethKeccak (Eth.mkSerialized trivialCrypto sampleEthTx "k0") =
      (Eth.signTransaction trivialCrypto sampleEthTx "k0" 0).txHash :=
  claim_C6 trivialCrypto sampleEthTx "k0" 0 _ rfl

theorem btc_build_ok_fields (newId : String) (now : Nat) (params : BuildTransactionParams)
    (prereq : TransactionPrerequisites) (u : UnsignedTransaction)
    (h : Btc.buildTransaction newId now params prereq = .ok u) :
    u.utxos = some (prereq.utxos.getD []) ∧ prereq.utxos.getD [] ≠ [] ∧
      u.toAddr = params.toAddr := by
  revert h
  simp only [Btc.buildTransaction]
  by_cases hne : prereq.utxos.getD [] = []
  · rw [if_pos hne]
    intro h
    cases h
  · rw [if_neg hne]
    intro h
    split at h
    · cases h
    · cases h
      exact ⟨rfl, hne, rfl⟩

theorem btc_sign_of_ne (c : ExtCrypto) (u : UnsignedTransaction) (k : String) (now2 : Nat)
    (hne : u.utxos.getD [] ≠ []) :
    ∃ s b, Btc.signTransaction c u k now2 = .ok s ∧ s.serialized = .btc b ∧
      b.outs.head? = some { address := u.toAddr, value := u.amount } := by
  simp only [Btc.signTransaction]
  rw [if_neg hne]
  exact ⟨_, _, rfl, rfl, rfl⟩

/-- Claim C7: for each of the four chains, parsing the serialized form of the
signed built transaction recovers the recipient, the amount in the chain's
integer base unit as stored by build, and the chain-specific nonce/sequence
field: `nonce` for Ethereum and `sequence` for XRP (for Bitcoin and TRON the
unsigned transaction carries no nonce/sequence field, so the clause is
vacuous there; for TRON the block-reference/expiry analogues are recovered as
well). -/
theorem claim_C7 :
    (∀ (c : ExtCrypto) (newId : String) (now : Nat) (params : BuildTransactionParams)
        (prereq : TransactionPrerequisites) (k : String) (now2 : Nat),
      ∃ p, parseDispatch .ETH
          (Eth.signTransaction c (Eth.buildTransaction c newId now params prereq) k
            now2).serialized = .ok p ∧
        p.toAddr = some (Eth.buildTransaction c newId now params prereq).toAddr ∧
        p.amount = some (Eth.buildTransaction c newId now params prereq).amount ∧
        p.nonce = (Eth.buildTransaction c newId now params prereq).nonce) ∧
    (∀ (c : ExtCrypto) (newId : String) (now : Nat) (params : BuildTransactionParams)
        (prereq : TransactionPrerequisites) (k : String) (now2 : Nat),
      ∃ p, parseDispatch .XRP
          (Xrp.signTransaction c (Xrp.buildTransaction newId now params prereq) k
            now2).serialized = .ok p ∧
        p.toAddr = some (Xrp.buildTransaction newId now params prereq).toAddr ∧
        p.amount = some (Xrp.buildTransaction newId now params prereq).amount ∧
        p.sequence = (Xrp.buildTransaction newId now params prereq).sequence) ∧
    (∀ (c : ExtCrypto) (newId : String) (now : Nat) (params : BuildTransactionParams)
        (prereq : TransactionPrerequisites) (k : String) (now2 : Nat)
        (u : UnsignedTransaction),
      Btc.buildTransaction newId now params prereq = .ok u →
      ∃ s p, Btc.signTransaction c u k now2 = .ok s ∧
        parseDispatch .BTC s.serialized = .ok p ∧
        p.toAddr = some u.toAddr ∧ p.amount = some u.amount) ∧
    (∀ (c : ExtCrypto) (newId : String) (now : Nat) (params : BuildTransactionParams)
        (prereq : TransactionPrerequisites) (k : String) (now2 : Nat),
      ∃ p, parseDispatch .TRON
          (Tron.signTransaction c (Tron.buildTransaction newId now params prereq) k
            now2).serialized = .ok p ∧
        p.toAddr = some (Tron.buildTransaction newId now params prereq).toAddr ∧
        p.amount = some (Tron.buildTransaction newId now params prereq).amount ∧
        p.expiration = (Tron.buildTransaction newId now params prereq).expiration ∧
        p.refBlockBytes = (Tron.buildTransaction newId now params prereq).refBlockBytes ∧
        p.refBlockHash = (Tron.buildTransaction newId now params prereq).refBlockHash) := by
  refine ⟨?_, ?_, ?_, ?_⟩
  · intro c newId now params prereq k now2
    exact ⟨_, rfl, rfl, rfl, rfl⟩
  · intro c newId now params prereq k now2
    exact ⟨_, rfl, rfl, rfl, rfl⟩
  · intro c newId now params prereq k now2 u hbuild
    obtain ⟨hu, hne, -⟩ := btc_build_ok_fields newId now params prereq u hbuild
    have hne' : u.utxos.getD [] ≠ [] := by rw [hu]; exact hne
    obtain ⟨s, b, hsign, hser, hhead⟩ := btc_sign_of_ne c u k now2 hne'
    refine ⟨s, Btc.parseTransaction b, hsign, ?_, ?_, ?_⟩
    · rw [hser]
      rfl
    · simp [Btc.parseTransaction, hhead]
    · simp [Btc.parseTransaction, hhead]
  · intro c newId now params prereq k now2
    exact ⟨_, rfl, rfl, rfl, rfl, rfl, rfl⟩

theorem claim_C7_witness :
    ∃ s p,
      Btc.signTransaction trivialCrypto scenarioBuiltTx "0abc" 0 = .ok s ∧
      parseDispatch .BTC s.serialized = .ok p ∧
      p.toAddr = some scenarioBuiltTx.toAddr ∧ p.amount = some scenarioBuiltTx.amount := by
  refine claim_C7.2.2.1 trivialCrypto "tx1" 0 scenarioParams (scenarioPrereq 1100000)
    "0abc" 0 scenarioBuiltTx ?_
  simp only [Btc.buildTransaction]
  rw [if_neg (by decide)]
  rw [show (scenarioPrereq 1100000).utxos.getD [] = [scenarioUtxo 1100000] from rfl]
  rw [show scenarioParams.amount = 1 / 100 from rfl, btcToSatoshi_centi]
  rw [show estimateTxSize [scenarioUtxo 1100000].length 2
      ((getAddressType scenarioParams.fromAddr).getD .nativeSegwit) *
      scenarioParams.feeRate.getD 10 = 1400 by decide]
  rw [if_neg (by norm_num; decide)]
  decide

/-- Claim C1 (exhibit of the divergence): on a state whose password hash
verifies `old` while the second of two stored records does not decrypt under
`old`, `changePassword(old, new)` aborts with the decryption failure — yet
the first record has already been re-encrypted and persisted under `new`,
with the password hash still the old one.  The re-encryption is therefore
not all-or-nothing. -/
theorem claim_C1_bug :
    (LocalProvider.changePassword mixedState "old" "new" "fs" "ns" "ni").2 =
      some .IntegrityFailure ∧
    ((LocalProvider.changePassword mixedState "old" "new" "fs" "ns" "ni").1.wallets.map
      (fun w => w.encrypted.enc.encPassword)) = ["new", "other"] ∧
    (LocalProvider.changePassword mixedState "old" "new" "fs" "ns" "ni").1.passwordHash =
      mixedState.passwordHash ∧
    (LocalProvider.changePassword mixedState "old" "new" "fs" "ns" "ni").1.wallets ≠
      mixedState.wallets := by
  exact ⟨by decide, by decide, by decide, by decide⟩

theorem unlock_success (st0 : ProviderState) (pw freshSalt : String)
    (h : (LocalProvider.unlock st0 pw freshSalt).2 = true) :
    (LocalProvider.unlock st0 pw freshSalt).1.password = some pw ∧
    (LocalProvider.unlock st0 pw freshSalt).1.decryptedKeys = st0.decryptedKeys ∧
    (LocalProvider.unlock st0 pw freshSalt).1.wallets = st0.wallets ∧
    ∃ hs, (LocalProvider.unlock st0 pw freshSalt).1.passwordHash = some hs ∧
      verifyPassword pw hs.1 hs.2 = true := by
  revert h
  rcases hph : st0.passwordHash with _ | ⟨h0, s0⟩
  · simp only [LocalProvider.unlock, hph]
    intro _
    refine ⟨by trivial, by trivial, by trivial, hashPassword pw freshSalt, by trivial, ?_⟩
    simp [verifyPassword, hashPassword]
  · simp only [LocalProvider.unlock, hph]
    by_cases hv : verifyPassword pw h0 s0 = true
    · rw [if_pos hv]
      intro _
      exact ⟨by trivial, by trivial, by trivial, (h0, s0), by trivial, hv⟩
    · rw [if_neg hv]
      intro hfalse
      cases hfalse

theorem find_saveWalletList (ws : List InternalWalletData) (d : InternalWalletData) :
    (saveWalletList ws d).find? (fun x => x.info.id == d.info.id) = some d := by
  unfold saveWalletList
  split
  next hany =>
      induction ws with
      | nil => simp at hany
      | cons w rest ih =>
          simp only [List.map_cons]
          by_cases hw : w.info.id = d.info.id
          · rw [if_pos hw]
            exact List.find?_cons_of_pos _ (by simp)
          · rw [if_neg hw]
            rw [List.find?_cons_of_neg _ (by simp [hw])]
            apply ih
            simp only [List.any_cons, Bool.or_eq_true] at hany
            rcases hany with hany | hany
            · exact absurd (by simpa using hany) hw
            · simpa using hany
  next hany =>
      rw [List.find?_append]
      have hnone : ws.find? (fun x => x.info.id == d.info.id) = none := by
        rw [List.find?_eq_none]
        intro x hx
        simp only [beq_iff_eq]
        intro hcontra
        exact hany (by rw [List.any_eq_true]; exact ⟨x, hx, by simp [hcontra]⟩)
      rw [hnone]
      simp [List.find?_cons_of_pos]

theorem find_saveWalletList' (ws : List InternalWalletData) (d : InternalWalletData)
    (key : String) (hkey : d.info.id = key) :
    (saveWalletList ws d).find? (fun x => x.info.id == key) = some d := by
  subst hkey
  exact find_saveWalletList ws d

theorem generate_ok_fields (st1 : ProviderState) (pw : String) (fresh : FreshWallet)
    (params : CreateWalletParams) (now : Nat) (st2 : ProviderState) (w : WalletInfo)
    (mn : String) (hpw : st1.password = some pw)
    (hg : LocalProvider.generateWallet st1 fresh params now = .ok (st2, w, mn)) :
    w.id = fresh.walletId ∧
    st2.passwordHash = st1.passwordHash ∧
    st2.wallets = saveWalletList st1.wallets
      { info := w,
        encrypted := { id := fresh.walletId, enc := encrypt fresh.privateKey pw fresh.salt fresh.iv } } := by
  revert hg
  simp only [LocalProvider.generateWallet, hpw]
  intro hg
  cases hg
  exact ⟨rfl, rfl, rfl⟩

/-- Claim C4: after `unlock(pw)` establishes the session and `generate`
creates a wallet, `lock()` discards the cached password and all cached
decrypted keys; `sign` then fails with `ProviderLocked`; a subsequent
`unlock(pw)` with the same password succeeds, after which `sign` succeeds
using the previously generated wallet's decrypted key (shown for an ETH
transaction); and `lock()` is total and idempotent. -/
theorem claim_C4 (c : ExtCrypto) (st0 : ProviderState) (pw freshSalt : String)
    (fresh : FreshWallet) (params : CreateWalletParams) (tx : UnsignedTransaction)
    (now now2 now3 : Nat) (st2 : ProviderState) (w : WalletInfo) (mn : String)
    (hu : (LocalProvider.unlock st0 pw freshSalt).2 = true)
    (hg : LocalProvider.generateWallet (LocalProvider.unlock st0 pw freshSalt).1 fresh
      params now = .ok (st2, w, mn))
    (hchain : tx.chain = .ETH) :
    ((LocalProvider.lock st2).password = none ∧
      (LocalProvider.lock st2).decryptedKeys = []) ∧
    LocalProvider.signTransaction c (LocalProvider.lock st2) w.id tx now2 =
      .error .ProviderLocked ∧
    (∀ salt2, (LocalProvider.unlock (LocalProvider.lock st2) pw salt2).2 = true) ∧
    (∀ salt2, ∃ st5 s,
      LocalProvider.signTransaction c
        (LocalProvider.unlock (LocalProvider.lock st2) pw salt2).1 w.id tx now3 =
        .ok (st5, s) ∧ s = Eth.signTransaction c tx fresh.privateKey now3) ∧
    (∀ st : ProviderState, LocalProvider.lock (LocalProvider.lock st) =
      LocalProvider.lock st) := by
  obtain ⟨hpw1, hkeys1, hwal1, hs, hph1, hver⟩ := unlock_success st0 pw freshSalt hu
  obtain ⟨hwid, hph2, hwal2⟩ :=
    generate_ok_fields _ pw fresh params now st2 w mn hpw1 hg
  have hlockph : (LocalProvider.lock st2).passwordHash = some hs := by
    show st2.passwordHash = some hs
    rw [hph2, hph1]
  have hunlock2 : ∀ salt2,
      (LocalProvider.unlock (LocalProvider.lock st2) pw salt2).2 = true := by
    intro salt2
    simp only [LocalProvider.unlock, hlockph]
    rw [if_pos hver]
  refine ⟨⟨rfl, rfl⟩, rfl, hunlock2, ?_, fun st => rfl⟩
  intro salt2
  obtain ⟨hpw4, hkeys4, hwal4, -⟩ :=
    unlock_success (LocalProvider.lock st2) pw salt2 (hunlock2 salt2)
  have hwal4' : (LocalProvider.unlock (LocalProvider.lock st2) pw salt2).1.wallets =
      st2.wallets := hwal4
  have hkeys4' : (LocalProvider.unlock (LocalProvider.lock st2) pw salt2).1.decryptedKeys =
      [] := hkeys4
  simp only [LocalProvider.signTransaction, hpw4, hkeys4', hwal4', hwal2]
  rw [List.lookup]
  rw [find_saveWalletList' _ _ w.id rfl]
  simp only [decrypt, encrypt]
  rw [if_pos trivial]
  simp only [signDispatch, hchain, Except.map]
  exact ⟨_, _, rfl, rfl⟩

theorem claim_C4_witness :
    LocalProvider.signTransaction trivialCrypto (LocalProvider.lock sampleState2)
      sampleWalletInfo.id sampleEthTx 0 = .error .ProviderLocked :=
  (claim_C4 trivialCrypto emptyProviderState "pw" "fs" sampleFresh sampleCreateParams
    sampleEthTx 0 0 0 sampleState2 sampleWalletInfo "test mnemonic" (by decide) (by decide)
    rfl).2.1

theorem lookup_filter_self {β : Type} (l : List (String × β)) (k : String) :
    (l.filter (fun p => p.1 != k)).lookup k = none := by
  induction l with
  | nil => rfl
  | cons p rest ih =>
      by_cases hp : p.1 = k
      · simpa [List.filter, hp] using ih
      · have hne : (p.1 != k) = true := by simp [hp]
        have hke : (k == p.1) = false := by simp [Ne.symm hp]
        simp [List.filter, hne, List.lookup, hke, ih]

theorem import_ok_elim (parseSigned : List Nat → Option SignedTransaction)
    (cs : List Char → List Char) (st : ExtProviderState) (env : AirGapPayload)
    (st' : ExtProviderState) (s : SignedTransaction)
    (h : ExternalProvider.importSignedTransaction parseSigned cs st env = .ok (st', s)) :
    cs env.data = env.checksum ∧ env.type = .signed_tx ∧
    parseSigned (b64Decode env.data) = some s ∧
    (∃ u, st.pendingTransactions.lookup s.unsignedTxId = some u) ∧
    st' = { st with pendingTransactions :=
      st.pendingTransactions.filter (fun p => p.1 != s.unsignedTxId) } := by
  revert h
  simp only [ExternalProvider.importSignedTransaction]
  by_cases hcs : cs env.data ≠ env.checksum
  · rw [if_pos hcs]
    intro h
    cases h
  · rw [if_neg hcs]
    by_cases hty : env.type ≠ PayloadType.signed_tx
    · rw [if_pos hty]
      intro h
      cases h
    · rw [if_neg hty]
      intro h
      split at h
      · cases h
      next s2 hps =>
        split at h
        · cases h
        next u hlk =>
          cases h
          exact ⟨not_ne_iff.mp hcs, not_ne_iff.mp hty, hps, ⟨u, hlk⟩, rfl⟩

/-- Claim C10: a successful `importSignedTransaction` removes the pending
entry keyed by the signed transaction's `unsignedTxId`, so a second import of
any envelope referencing that id — with no intervening export — fails with
the no-matching-pending-transaction error; and an envelope whose referenced
id has no pending entry (never exported) is never accepted. -/
theorem claim_C10 (parseSigned : List Nat → Option SignedTransaction)
    (cs : List Char → List Char) (st : ExtProviderState) (env : AirGapPayload)
    (st' : ExtProviderState) (s : SignedTransaction)
    (h : ExternalProvider.importSignedTransaction parseSigned cs st env = .ok (st', s)) :
    st'.pendingTransactions.lookup s.unsignedTxId = none ∧
    (∀ env2 s2, parseSigned (b64Decode env2.data) = some s2 →
      s2.unsignedTxId = s.unsignedTxId →
      cs env2.data = env2.checksum → env2.type = .signed_tx →
      ExternalProvider.importSignedTransaction parseSigned cs st' env2 =
        .error .NotFound) ∧
    (∀ (st0 : ExtProviderState) (env0 : AirGapPayload),
      (∀ s0, parseSigned (b64Decode env0.data) = some s0 →
        st0.pendingTransactions.lookup s0.unsignedTxId = none) →
      ∀ st1 r, ExternalProvider.importSignedTransaction parseSigned cs st0 env0 ≠
        .ok (st1, r)) := by
  obtain ⟨hcs, hty, hps, ⟨u, hlk⟩, hst'⟩ := import_ok_elim parseSigned cs st env st' s h
  have hclear : st'.pendingTransactions.lookup s.unsignedTxId = none := by
    rw [hst']
    exact lookup_filter_self st.pendingTransactions s.unsignedTxId
  refine ⟨hclear, ?_, ?_⟩
  · intro env2 s2 hps2 hid hcs2 hty2
    simp only [ExternalProvider.importSignedTransaction]
    rw [if_neg (not_ne_iff.mpr hcs2), if_neg (not_ne_iff.mpr hty2), hps2]
    simp only [hid, hclear]
  · intro st0 env0 hnone st1 r hcontra
    obtain ⟨-, -, hps0, ⟨u0, hlk0⟩, -⟩ :=
      import_ok_elim parseSigned cs st0 env0 st1 r hcontra
    rw [hnone r hps0] at hlk0
    cases hlk0

theorem claim_C10_witness :
    ({ wallets := [], pendingTransactions := [] } :
      ExtProviderState).pendingTransactions.lookup sampleSignedTx.unsignedTxId = none :=
  (claim_C10 (fun _ => some sampleSignedTx) id sampleExtState sampleEnvelope
    { wallets := [], pendingTransactions := [] } sampleSignedTx (by decide)).1
